import Mathlib

/-!
Verification of the fil-data-prep core stage (directory tree assembly, root
resolution, frame streaming) against its natural-language specification.

Shallow embedding conventions:
- Go strings and byte slices are `List Nat` (one Nat per byte); the newline
  byte is 10, the slash byte is 47.
- The external merkledag `ProtoNode` is modelled by the two observations the
  core makes of it: `Cid().KeyString()` (its content-identifier key bytes)
  and `RawData()` (its serialized payload bytes).
- Pipe writes can fail; a run's write-failure environment is an oracle
  `Nat → Bool` consulted at the index of each successive write operation
  (`true` = the write succeeds).
- Functions of the repository that are not among the provided sources
  (`appendVarint`, the `roots` record type, `constructTree` and
  `getDirectoryNodes`) are modelled from the specification, or abstracted
  as parameters where the spec leaves them opaque; each such definition says
  so in its doc comment.
-/

/-- Model of Go strings.Split with a one-byte separator, as used in
getRoots (split on newline, byte 10) and in the root resolver
(split on slash, byte 47).  Matches Go semantics: the empty string splits
into one empty field, and a trailing separator yields a trailing empty
field. -/
def stringsSplit (sep : Nat) : List Nat → List (List Nat)
  | [] => [[]]
  | b :: bs =>
    if b = sep then [] :: stringsSplit sep bs
    else
      match stringsSplit sep bs with
      | [] => [[b]]
      | l :: ls => (b :: l) :: ls

/-- Modelled from the spec: the descriptor record type `roots` (declared in a
repository file outside the provided sources); per §3 and §6 it carries at
least a content identifier, which we keep as its key bytes. -/
structure roots where
  cid : List Nat
deriving DecidableEq, Repr

/-- The Go zero value of the `roots` struct, which `var r roots` starts from
in the collection loop of getRoots. -/
def rootsZero : roots := ⟨[]⟩

/-- Modelled from the spec: JSON decoding of one descriptor line into a
`roots` record (the source calls encoding/json.Unmarshal on a struct that is
outside the provided sources).  Per §6 each line is a JSON object with a
content-identifier field; we model a line as parsable exactly when it has the
shape open-brace "cid" colon quote ID quote close-brace with a quote-free ID,
and the record then carries ID. -/
def parseRootsLine (l : List Nat) : Option roots :=
  -- [123,34,99,105,100,34,58,34] is the 8-byte opener: brace, quote, c, i, d, quote, colon, quote
  -- [34,125] is the 2-byte closer: quote, brace
  if 10 ≤ l.length ∧ l.take 8 = [123, 34, 99, 105, 100, 34, 58, 34]
      ∧ l.drop (l.length - 2) = [34, 125]
      ∧ ((l.drop 8).take (l.length - 10)).all (fun b => b ≠ 34)
  then some ⟨(l.drop 8).take (l.length - 10)⟩
  else none

/-- Model of io.ReadAll on the descriptor pipe: it returns the whole byte
stream and consumes every byte up to end-of-stream (second component is the
number of bytes consumed). -/
def ioReadAll (stream : List Nat) : List Nat × Nat := (stream, stream.length)

/-- Result of the root record collection loop: the collected records and the
number of unmarshal failures that were logged. -/
structure RootsAcc where
  records : List roots
  warnings : Nat
deriving DecidableEq, Repr

/-- One iteration of the collection loop in getRoots: an empty line is
skipped; otherwise json.Unmarshal is attempted, a failure is logged, and the
record variable is appended in either case (the source has no continue after
the failure log, so the zero-valued record is appended too). -/
def getRootsStep (parse : List Nat → Option roots) (acc : RootsAcc) (el : List Nat) : RootsAcc :=
  if el = [] then acc
  else
    match parse el with
    | some r => ⟨acc.records ++ [r], acc.warnings⟩
    | none => ⟨acc.records ++ [rootsZero], acc.warnings + 1⟩

/-- Embedding of getRoots: read the whole descriptor stream, split it on
newlines, and run the collection loop over the lines. -/
def getRoots (parse : List Nat → Option roots) (stream : List Nat) : RootsAcc :=
  (stringsSplit 10 (ioReadAll stream).1).foldl (getRootsStep parse) ⟨[], 0⟩

/-- Fuel-driven body of the base-128 varint encoder; the fuel argument only
makes the recursion structural (so that terms reduce in the kernel), the
fallback branch is unreachable whenever the value fits in the fuel. -/
def putUvarintAux : Nat → Nat → List Nat
  | 0, n => [n % 128]
  | fuel + 1, n =>
    if n < 128 then [n]
    else (n % 128 + 128) :: putUvarintAux fuel (n / 128)

/-- Base-128 little-endian varint encoding: low seven bits first, the high
bit of a byte set on every byte but the last. -/
def putUvarint (n : Nat) : List Nat := putUvarintAux n n

/-- Modelled from the spec: appendVarint (declared in a repository file
outside the provided sources) appends the variable-length integer encoding of
its argument to the given buffer, in the standard base-128 little-endian
form the frame format of §6 refers to. -/
def appendVarint (buf : List Nat) (n : Nat) : List Nat := buf ++ putUvarint n

/-- Base-128 varint decoder used to state the frame round-trip property of
§8.5: returns the decoded value and the unread remainder of the stream. -/
def readUvarint : List Nat → Option (Nat × List Nat)
  | [] => none
  | b :: bs =>
    if b < 128 then some (b, bs)
    else
      match readUvarint bs with
      | some pr => some (pr.1 * 128 + (b - 128), pr.2)
      | none => none

/-- The two observations writeNode makes of a merkledag.ProtoNode: the key
bytes of its content identifier (Cid().KeyString()) and its serialized
payload (RawData()). -/
structure ProtoNode where
  cidKey : List Nat
  rawData : List Nat
deriving DecidableEq, Repr

/-- State of the outbound pipe during frame emission: the bytes successfully
written so far, the index of the next write operation (consulted in the
write-failure oracle), and the number of write failures that were logged. -/
structure WState where
  out : List Nat
  wix : Nat
  logged : Nat
deriving DecidableEq, Repr

/-- The initial pipe state: nothing written, no writes attempted, nothing
logged. -/
def w0 : WState := ⟨[], 0, 0⟩

/-- One wout.Write call: the oracle decides whether this write succeeds; a
successful write appends its bytes, a failed one appends nothing; either way
the write-operation index advances.  Returns the Go err == nil flag. -/
def pipeWrite (oracle : Nat → Bool) (bytes : List Nat) (st : WState) : Bool × WState :=
  if oracle st.wix
  then (true, ⟨st.out ++ bytes, st.wix + 1, st.logged⟩)
  else (false, ⟨st.out, st.wix + 1, st.logged⟩)

/-- One iteration of the loop in writeNode: encode the combined length of the
content-identifier key bytes and the payload as a varint (the source reuses
the sizeVi buffer truncated to length zero, which leaves exactly the fresh
encoding), then attempt the three writes with the source's nested err == nil
checks: a failed length write skips the key and payload writes, a failed key
write skips the payload write, and only a failed payload write is logged. -/
def writeNode1 (oracle : Nat → Bool) (nd : ProtoNode) (st : WState) : WState :=
  let c := nd.cidKey
  let d := nd.rawData
  let sizeVi := appendVarint [] (c.length + d.length)
  let r1 := pipeWrite oracle sizeVi st
  if r1.1 then
    let r2 := pipeWrite oracle c r1.2
    if r2.1 then
      let r3 := pipeWrite oracle d r2.2
      if r3.1 then r3.2
      else ⟨r3.2.out, r3.2.wix, r3.2.logged + 1⟩
    else r2.2
  else r1.2

/-- Embedding of writeNode: the emission loop over the node subsequence. -/
def writeNode (oracle : Nat → Bool) (nodes : List ProtoNode) (st : WState) : WState :=
  nodes.foldl (fun s nd => writeNode1 oracle nd s) st

/-- The frame format the spec prescribes for one node (§6): varint of the
combined byte length, then the content-identifier key bytes, then the payload
bytes.  This is the spec-side formula the emitter is compared against. -/
def frameBytes (nd : ProtoNode) : List Nat :=
  appendVarint [] (nd.cidKey.length + nd.rawData.length) ++ nd.cidKey ++ nd.rawData

/-- Spec-side frame reader for the round-trip property of §8.5: read the
varint length, then the given number of key bytes, then the payload bytes;
returns the key bytes, the payload bytes, and the unread remainder. -/
def decodeFrame (keyLen : Nat) (s : List Nat) : Option (List Nat × List Nat × List Nat) :=
  match readUvarint s with
  | none => none
  | some pr =>
    if keyLen ≤ pr.1 ∧ pr.1 ≤ pr.2.length then
      some (pr.2.take keyLen, (pr.2.drop keyLen).take (pr.1 - keyLen), pr.2.drop pr.1)
    else none

/-- The write-failure oracle of a fault-free run: every write succeeds. -/
def allOk : Nat → Bool := fun _ => true

/-- Embedding of the root-resolution branch of filDataPrep: given the
original InputPath arguments and the assembled NodeSequence, pick the
canonical root node and the node subsequence handed to writeNode.  none
models the panic Go would raise on an out-of-range index. -/
def rootResolve (paths : List (List Nat)) (nodes : List ProtoNode) :
    Option (ProtoNode × List ProtoNode) :=
  if nodes.length = 1 ∨ 1 < paths.length then
    match nodes with
    | [] => none
    | n :: _ => some (n, nodes)
  else
    match paths with
    | [] => none
    | p :: _ =>
      let idx := (stringsSplit 47 p).length
      match nodes.get? idx with
      | none => none
      | some n => some (n, nodes.drop idx)

/-- Outcome of the core stage goroutine: the canonical root content
identifier it reports (none models a panic), the frame bytes it emitted onto
the outbound pipe, and the record list it handed to tree assembly. -/
structure CoreOut where
  rcid : Option (List Nat)
  emitted : List Nat
  records : List roots
deriving Repr

/-- Embedding of the core stage goroutine of filDataPrep: drain the
descriptor stream with getRoots, assemble the tree from the file list and
the collected records, resolve the canonical root, and emit the selected
node subsequence.  constructNodes abstracts constructTree composed with
getDirectoryNodes (repository code outside the provided sources; per §3 a
pure function from the file list and record list to the NodeSequence). -/
def coreStage (constructNodes : List (List Nat) → List roots → List ProtoNode)
    (parse : List Nat → Option roots) (files paths : List (List Nat))
    (stream : List Nat) (oracle : Nat → Bool) : CoreOut :=
  let rs := getRoots parse (ioReadAll stream).1
  let nodes := constructNodes files rs.records
  let sel := rootResolve paths nodes
  ⟨sel.map (fun pr => pr.1.cidKey),
   match sel with
   | none => []
   | some pr => (writeNode oracle pr.2 w0).out,
   rs.records⟩

/-- Expansion of the argument loop of filDataPrep: each InputPath is expanded
to its file list (getAllFileReadersFromPath, a filesystem walk the spec
excludes from the core, abstracted as a parameter); the first failure aborts
the whole invocation, and the per-path file lists are concatenated in
argument order. -/
def expandAll (expandPath : List Nat → Option (List (List Nat))) :
    List (List Nat) → Option (List (List Nat))
  | [] => some []
  | p :: ps =>
    match expandPath p with
    | none => none
    | some fs =>
      match expandAll expandPath ps with
      | none => none
      | some rest => some (fs ++ rest)

/-- Embedding of the filDataPrep entry point, up to the result the core is
responsible for: the zero-argument guard runs first and returns an error
before anything else (no path expansion, no pipes, no stages); otherwise the
arguments are expanded and the core stage runs. -/
def filDataPrep (expandPath : List Nat → Option (List (List Nat)))
    (constructNodes : List (List Nat) → List roots → List ProtoNode)
    (parse : List Nat → Option roots) (paths : List (List Nat))
    (stream : List Nat) (oracle : Nat → Bool) : Except String CoreOut :=
  if paths.isEmpty then
    Except.error "expected some data to be processed, found none"
  else
    match expandAll expandPath paths with
    | none => Except.error "could not read an input path"
    | some files => Except.ok (coreStage constructNodes parse files paths stream oracle)

/-- Splitting never produces an empty list of fields. -/
theorem stringsSplit_ne_nil (sep : Nat) (s : List Nat) : stringsSplit sep s ≠ [] := by
  cases s with
  | nil => simp [stringsSplit]
  | cons b bs =>
    by_cases h : b = sep
    · simp [stringsSplit, h]
    · cases h2 : stringsSplit sep bs <;> simp [stringsSplit, h, h2]

/-- A trailing separator contributes exactly one trailing empty field. -/
theorem stringsSplit_append_sep (sep : Nat) (s : List Nat) :
    stringsSplit sep (s ++ [sep]) = stringsSplit sep s ++ [[]] := by
  induction s with
  | nil => simp [stringsSplit]
  | cons b bs ih =>
    by_cases h : b = sep
    · subst h
      simp [stringsSplit, ih]
    · obtain ⟨l, ls, hls⟩ := List.exists_cons_of_ne_nil (stringsSplit_ne_nil sep bs)
      simp [stringsSplit, h, ih, hls]

/-- The collection loop appends exactly one record per non-empty line, valid
or not (on an unmarshal failure the source logs and appends the zero-valued
record; it does not skip). -/
theorem getRootsStep_fold_length (parse : List Nat → Option roots)
    (els : List (List Nat)) (acc : RootsAcc) :
    ((els.foldl (getRootsStep parse) acc).records).length
      = acc.records.length + (els.filter (fun l => !l.isEmpty)).length := by
  induction els generalizing acc with
  | nil => simp
  | cons el els ih =>
    rw [List.foldl_cons, ih]
    by_cases h : el = []
    · subst h
      simp [getRootsStep]
    · have hne : (!el.isEmpty) = true := by
        simp [List.isEmpty_iff, h]
      cases hp : parse el <;>
        simp [getRootsStep, h, hp, List.filter_cons, hne] <;> omega

/-- Decoding inverts the fuelled varint encoder whenever the fuel covers the
encoded value. -/
theorem readUvarint_putUvarintAux (fuel : Nat) :
    ∀ n, n ≤ fuel → ∀ rest, readUvarint (putUvarintAux fuel n ++ rest) = some (n, rest) := by
  induction fuel with
  | zero =>
    intro n hn rest
    interval_cases n
    simp [putUvarintAux, readUvarint]
  | succ fuel ih =>
    intro n hn rest
    by_cases h : n < 128
    · simp [putUvarintAux, readUvarint, h]
    · have hdiv : n / 128 ≤ fuel := by
        have h1 : n / 128 < n := Nat.div_lt_self (by omega) (by omega)
        omega
      have hmod : ¬ (n % 128 + 128 < 128) := by omega
      have hmodeq : n % 128 + 128 - 128 = n % 128 := by omega
      have hrecon : n / 128 * 128 + n % 128 = n := by
        have := Nat.div_add_mod n 128
        omega
      simp [putUvarintAux, h, readUvarint, hmod, ih (n / 128) hdiv rest, hmodeq, hrecon]

/-- Decoding inverts the varint encoder, leaving the remainder untouched. -/
theorem readUvarint_putUvarint (n : Nat) (rest : List Nat) :
    readUvarint (putUvarint n ++ rest) = some (n, rest) :=
  readUvarint_putUvarintAux n n (Nat.le_refl n) rest

/-- Taking exactly the length of the left part of an append returns it. -/
theorem take_append_len (c d : List Nat) : (c ++ d).take c.length = c := by
  induction c with
  | nil => simp
  | cons b bs ih => simp [ih]

/-- Dropping exactly the length of the left part of an append returns the
right part. -/
theorem drop_append_len (c d : List Nat) : (c ++ d).drop c.length = d := by
  induction c with
  | nil => simp
  | cons b bs ih => simp [ih]

/-- Dropping the full combined length of an append leaves nothing. -/
theorem drop_append_full (c d : List Nat) : (c ++ d).drop (c.length + d.length) = [] := by
  have h : (c ++ d).length = c.length + d.length := List.length_append c d
  rw [← h]
  exact List.drop_length (c ++ d)

/-- In a fault-free run, one loop iteration writes exactly the frame of its
node and logs nothing. -/
theorem writeNode1_allOk (nd : ProtoNode) (st : WState) :
    writeNode1 allOk nd st = ⟨st.out ++ frameBytes nd, st.wix + 3, st.logged⟩ := by
  simp [writeNode1, pipeWrite, allOk, frameBytes, List.append_assoc]

/-- In a fault-free run, the emission loop appends the concatenation of the
frames of its nodes, in order. -/
theorem writeNode_allOk_out (nodes : List ProtoNode) (st : WState) :
    (writeNode allOk nodes st).out = st.out ++ (nodes.map frameBytes).flatten := by
  induction nodes generalizing st with
  | nil => simp [writeNode]
  | cons nd nds ih =>
    have h : writeNode allOk (nd :: nds) st = writeNode allOk nds (writeNode1 allOk nd st) := by
      simp [writeNode]
    rw [h, ih, writeNode1_allOk]
    simp [List.append_assoc]

/-- Every loop iteration attempts at least one write (the varint length
write comes first, whatever happens afterwards). -/
theorem writeNode1_wix_ge (oracle : Nat → Bool) (nd : ProtoNode) (st : WState) :
    st.wix + 1 ≤ (writeNode1 oracle nd st).wix := by
  simp only [writeNode1, pipeWrite]
  cases h1 : oracle st.wix <;> simp [h1]
  cases h2 : oracle (st.wix + 1) <;> simp [h2]
  cases h3 : oracle (st.wix + 2) <;> simp [h3]

/-- The emission loop reaches every node: each node in the sequence causes
at least one attempted write, whatever failures the oracle injects. -/
theorem writeNode_wix_ge (oracle : Nat → Bool) (nodes : List ProtoNode) (st : WState) :
    st.wix + nodes.length ≤ (writeNode oracle nodes st).wix := by
  induction nodes generalizing st with
  | nil => simp [writeNode]
  | cons nd nds ih =>
    have h : writeNode oracle (nd :: nds) st = writeNode oracle nds (writeNode1 oracle nd st) := by
      simp [writeNode]
    rw [h]
    have h1 := writeNode1_wix_ge oracle nd st
    have h2 := ih (writeNode1 oracle nd st)
    simp only [List.length_cons]
    omega

/-- Concrete fixtures used by witnesses and counterexamples. -/
def pABC : List Nat := [97, 47, 98, 47, 99]

/-- The one-byte path a. -/
def pA : List Nat := [97]

/-- The one-byte path b. -/
def pB : List Nat := [98]

/-- A concrete node. -/
def n0 : ProtoNode := ⟨[0], [10]⟩

/-- A concrete node. -/
def n1 : ProtoNode := ⟨[1], [11]⟩

/-- A concrete node. -/
def n2 : ProtoNode := ⟨[2], [12]⟩

/-- A concrete node. -/
def n3 : ProtoNode := ⟨[3], [13]⟩

/-- A concrete four-node NodeSequence. -/
def nodes4 : List ProtoNode := [n0, n1, n2, n3]

/-- A write-failure oracle under which every pipe write fails. -/
def oracleNone : Nat → Bool := fun _ => false

/-- A write-failure oracle under which the first two pipe writes succeed and
every later one fails. -/
def oracleTTF : Nat → Bool := fun i => decide (i < 2)

/-- A write-failure oracle under which only the first pipe write succeeds. -/
def oracleTF : Nat → Bool := fun i => decide (i < 1)

/-- A descriptor stream with one valid JSON line followed by one malformed
line (the single byte x). -/
def mStream : List Nat := [123, 34, 99, 105, 100, 34, 58, 34, 97, 34, 125] ++ [10] ++ [120]

/-- C1: with exactly one InputPath argument and a NodeSequence of more than
one element, the root resolver selects NodeSequence at index k, where k is
the number of path segments of the argument (the length of its split on the
slash byte), and emits exactly the suffix of the NodeSequence from index k
on. -/
theorem rootResolve_single_multiseg (p : List Nat) (nodes : List ProtoNode)
    (hn : 1 < nodes.length) (hk : (stringsSplit 47 p).length < nodes.length) :
    rootResolve [p] nodes
      = some (nodes.get ⟨(stringsSplit 47 p).length, hk⟩,
              nodes.drop ((stringsSplit 47 p).length)) := by
  have hcond : ¬ (nodes.length = 1 ∨ 1 < ([p] : List (List Nat)).length) := by
    simp
    omega
  simp only [rootResolve, if_neg hcond]
  simp [List.getElem?_eq_getElem hk]

/-- C1 witness: for the path a/b/c (three segments) and a four-node
NodeSequence, the resolver selects the node at index 3 and emits exactly the
one-node suffix. -/
theorem rootResolve_single_multiseg_witness :
    1 < nodes4.length ∧ rootResolve [pABC] nodes4 = some (n3, [n3]) := by
  refine ⟨by decide, ?_⟩
  have h := rootResolve_single_multiseg pABC nodes4 (by decide) (by decide)
  exact h.trans (by decide)

/-- C3: when the NodeSequence has exactly one element or more than one
InputPath argument was supplied, the root resolver selects the first node of
the NodeSequence (the synthetic super-root) and emits the entire
NodeSequence. -/
theorem rootResolve_superRoot (paths : List (List Nat)) (nodes : List ProtoNode)
    (h : nodes.length = 1 ∨ 1 < paths.length) (hne : nodes ≠ []) :
    rootResolve paths nodes = some (nodes.head hne, nodes) := by
  cases nodes with
  | nil => exact absurd rfl hne
  | cons n t =>
    simp only [rootResolve, if_pos h]
    simp

/-- C3 witness: with two InputPath arguments and a four-node NodeSequence,
the resolver selects the super-root at index 0 and emits all four nodes. -/
theorem rootResolve_superRoot_witness :
    rootResolve [pA, pB] nodes4 = some (n0, nodes4) := by
  have h := rootResolve_superRoot [pA, pB] nodes4 (Or.inr (by decide)) (by decide)
  exact h.trans (by decide)

/-- C4: in a run without write failures, the frame emitter writes onto the
outbound stream, per node in sequence order, exactly the varint of the
combined length of content-identifier key bytes and payload bytes, the key
bytes and the payload bytes, with no separator between consecutive
records. -/
theorem writeNode_frames_exact (nodes : List ProtoNode) :
    (writeNode allOk nodes w0).out = (nodes.map frameBytes).flatten := by
  simpa [w0] using writeNode_allOk_out nodes w0

/-- C5: encoding any node with the frame emitter and reading one frame back
from the stream (varint length, then the key bytes, then the payload bytes)
reconstructs the original content-identifier key bytes and payload bytes
exactly and consumes the whole stream. -/
theorem frame_roundTrip (nd : ProtoNode) :
    decodeFrame nd.cidKey.length ((writeNode allOk [nd] w0).out)
      = some (nd.cidKey, nd.rawData, []) := by
  have hout : (writeNode allOk [nd] w0).out
      = putUvarint (nd.cidKey.length + nd.rawData.length) ++ (nd.cidKey ++ nd.rawData) := by
    rw [writeNode_allOk_out]
    simp [w0, frameBytes, appendVarint, List.append_assoc]
  rw [hout]
  simp only [decodeFrame, readUvarint_putUvarint]
  have hc1 : nd.cidKey.length ≤ nd.cidKey.length + nd.rawData.length := Nat.le_add_right _ _
  have hc2 : nd.cidKey.length + nd.rawData.length ≤ (nd.cidKey ++ nd.rawData).length := by
    simp
  rw [if_pos ⟨hc1, hc2⟩, take_append_len, drop_append_len, drop_append_full]
  simp

/-- C6 counterexample: under an oracle that fails every write, the single
frame of a one-node sequence fails to be written (one write was attempted and
nothing reached the stream) yet nothing is logged, contradicting the claim
that every frame whose write fails is logged. -/
theorem writeNode_unlogged_failure_cex :
    (writeNode oracleNone [n0] w0).wix = 1
    ∧ (writeNode oracleNone [n0] w0).out = []
    ∧ (writeNode oracleNone [n0] w0).logged = 0 := by decide

/-- C6 amended: the frame emitter never aborts on a write failure: every node
of the sequence still causes its frame to be attempted (at least one write
each) and no error is surfaced; a failed length-prefix write skips the rest of
that frame silently (no log), a failed key write after a successful length
write skips the payload write silently (no log), and only a payload write
failing after the length and key writes succeeded is logged. -/
theorem writeNode_failure_policy :
    (∀ (oracle : Nat → Bool) (nodes : List ProtoNode) (st : WState),
        st.wix + nodes.length ≤ (writeNode oracle nodes st).wix)
    ∧ (∀ (oracle : Nat → Bool) (nd : ProtoNode) (st : WState),
        oracle st.wix = false →
        writeNode1 oracle nd st = ⟨st.out, st.wix + 1, st.logged⟩)
    ∧ (∀ (oracle : Nat → Bool) (nd : ProtoNode) (st : WState),
        oracle st.wix = true → oracle (st.wix + 1) = false →
        writeNode1 oracle nd st
          = ⟨st.out ++ appendVarint [] (nd.cidKey.length + nd.rawData.length),
             st.wix + 2, st.logged⟩)
    ∧ (∀ (oracle : Nat → Bool) (nd : ProtoNode) (st : WState),
        oracle st.wix = true → oracle (st.wix + 1) = true →
        oracle (st.wix + 2) = false →
        writeNode1 oracle nd st
          = ⟨st.out ++ appendVarint [] (nd.cidKey.length + nd.rawData.length) ++ nd.cidKey,
             st.wix + 3, st.logged + 1⟩) := by
  refine ⟨writeNode_wix_ge, ?_, ?_, ?_⟩
  · intro oracle nd st h
    simp [writeNode1, pipeWrite, h]
  · intro oracle nd st h1 h2
    simp [writeNode1, pipeWrite, h1, h2]
  · intro oracle nd st h1 h2 h3
    simp [writeNode1, pipeWrite, h1, h2, h3, List.append_assoc]

/-- C6 amended witness: at concrete inputs, a failed first write leaves the
log empty, a failed key write after a successful length write also leaves the
log empty (with the length bytes written and the payload skipped), and a
failed payload write after two successful writes is logged once. -/
theorem writeNode_failure_policy_witness :
    writeNode1 oracleNone n0 w0 = ⟨[], 1, 0⟩
    ∧ writeNode1 oracleTF n0 w0
        = ⟨appendVarint [] (n0.cidKey.length + n0.rawData.length), 2, 0⟩
    ∧ writeNode1 oracleTTF n0 w0
        = ⟨appendVarint [] (n0.cidKey.length + n0.rawData.length) ++ n0.cidKey, 3, 1⟩ := by
  refine ⟨?_, ?_, ?_⟩
  · have h := writeNode_failure_policy.2.1 oracleNone n0 w0 rfl
    exact h.trans (by decide)
  · have h := writeNode_failure_policy.2.2.1 oracleTF n0 w0 rfl rfl
    exact h.trans (by decide)
  · have h := writeNode_failure_policy.2.2.2 oracleTTF n0 w0 rfl rfl rfl
    exact h.trans (by decide)

/-- C2: the source of getRoots logs the unmarshal failure of a malformed
descriptor line but lacks a continue, so the zero-valued record is appended
anyway: one valid line plus one malformed line yields two collected records
(the claim and the spec say exactly one), with one warning logged. -/
theorem getRoots_appends_malformed_record :
    ((getRoots parseRootsLine mStream).records).length = 2
    ∧ (getRoots parseRootsLine mStream).records = [⟨[97]⟩, rootsZero]
    ∧ (getRoots parseRootsLine mStream).warnings = 1 := by decide

/-- C7: the canonical root content identifier reported by the core stage is a
deterministic function of the input paths, file list, descriptor stream and
tree assembly; two runs differing only in their write-failure environment
report bit-for-bit the same root content identifier. -/
theorem coreStage_root_deterministic
    (cn : List (List Nat) → List roots → List ProtoNode)
    (parse : List Nat → Option roots) (files paths : List (List Nat))
    (stream : List Nat) (o1 o2 : Nat → Bool) :
    (coreStage cn parse files paths stream o1).rcid
      = (coreStage cn parse files paths stream o2).rcid := rfl

/-- C8: with zero input arguments the invocation fails fast with an error
before anything else: the error branch precedes path expansion and pipeline
construction, and the result carries no core-stage outcome. -/
theorem filDataPrep_no_args_fails_fast
    (expandPath : List Nat → Option (List (List Nat)))
    (cn : List (List Nat) → List roots → List ProtoNode)
    (parse : List Nat → Option roots) (stream : List Nat) (oracle : Nat → Bool) :
    filDataPrep expandPath cn parse [] stream oracle
      = Except.error "expected some data to be processed, found none" := rfl

/-- C9: the record list the core stage hands to tree assembly is exactly the
list collected from the complete descriptor stream: the side channel is read
to end-of-stream (all bytes consumed) and every non-empty line of the whole
stream has contributed its record before assembly starts. -/
theorem coreStage_drains_before_assembly
    (cn : List (List Nat) → List roots → List ProtoNode)
    (parse : List Nat → Option roots) (files paths : List (List Nat))
    (stream : List Nat) (oracle : Nat → Bool) :
    (coreStage cn parse files paths stream oracle).records = (getRoots parse stream).records
    ∧ (ioReadAll stream).2 = stream.length
    ∧ ((getRoots parse stream).records).length
        = ((stringsSplit 10 stream).filter (fun l => !l.isEmpty)).length := by
  refine ⟨rfl, rfl, ?_⟩
  have h := getRootsStep_fold_length parse (stringsSplit 10 stream) ⟨[], 0⟩
  simpa [getRoots, ioReadAll] using h

/-- C10: empty lines of the descriptor stream contribute neither a record
nor a warning, and in particular a stream ending in a newline collects
exactly what the same stream without the trailing newline collects. -/
theorem getRoots_empty_lines_skipped (parse : List Nat → Option roots) :
    (∀ acc : RootsAcc, getRootsStep parse acc [] = acc)
    ∧ ∀ stream : List Nat, getRoots parse (stream ++ [10]) = getRoots parse stream := by
  constructor
  · intro acc
    simp [getRootsStep]
  · intro s
    simp only [getRoots, ioReadAll]
    rw [stringsSplit_append_sep, List.foldl_append]
    simp [getRootsStep]
